import Mathlib

/-!
# Verification of the Advanced PK Simulator numeric core

Shallow embedding of the pharmacokinetic computation engine of the
repository: the defensive input normalization, the single-dose IV-bolus
and oral concentration formulas, multi-dose superposition, the sample
sequence generator, and the metrics aggregation (peak, AUC, steady
state).  Times, clamping and grid structure are modelled over `ℚ`
(the source loop arithmetic is exact on quarter steps); concentrations
use `ℝ` with `Real.exp` for the exponential decay terms.

The legacy component (`src/AdvancedPKSimulator.jsx`) is embedded
separately as `legacyConcentration` for the refinement comparison.
-/

namespace PKSim

/-- The floor `epsilon = 1e-9` applied to the rate constants. -/
def epsilon : ℚ := 1 / 10 ^ 9

/-- JavaScript `x || fb` applied to a parse result: `none` models `NaN`
(non-numeric input); a parsed `0` is falsy and also falls back. -/
def jsOrQ (x : Option ℚ) (fb : ℚ) : ℚ :=
  match x with
  | none => fb
  | some v => if v = 0 then fb else v

/-- JavaScript `parseInt(x, 10) || fb` for the dose count. -/
def jsOrZ (x : Option ℤ) (fb : ℤ) : ℤ :=
  match x with
  | none => fb
  | some v => if v = 0 then fb else v

/-- Raw user input: each numeric field is the result of
`parseFloat`/`parseInt` (`none` = `NaN`).  The therapeutic band
bounds are used directly as numbers by the component. -/
structure RawParams where
  numberOfDoses : Option ℤ
  dosingInterval : Option ℚ
  dose : Option ℚ
  volume : Option ℚ
  ke : Option ℚ
  ka : Option ℚ
  bioavailability : Option ℚ
  therapeuticMin : ℚ
  therapeuticMax : ℚ

/-- The normalized parameter record actually fed into the computation. -/
structure Params where
  nDose : ℕ
  intv : ℚ
  dose : ℚ
  volume : ℚ
  ke : ℚ
  ka : ℚ
  F : ℚ
  therapeuticMin : ℚ
  therapeuticMax : ℚ

/-- The defensive parsing block of the component:
`nDose = max(1, parseInt(numberOfDoses,10) || 1)`,
`intv = max(0.1, parseFloat(dosingInterval) || 0.1)`,
`numericDose = max(0, parseFloat(dose) || 0)`,
`numericV = max(0.0001, parseFloat(volume) || 0.0001)`,
`numericKe = max(epsilon, parseFloat(ke) || epsilon)`,
`numericKa = max(epsilon, parseFloat(ka) || epsilon)`,
`numericF = min(1, max(0, parseFloat(bioavailability) || 0))`.
`therapeuticMin`/`therapeuticMax` have no corresponding clamp in the
source; they are used as-is, so they pass through unchanged. -/
def normalizeParams (r : RawParams) : Params where
  nDose := (max 1 (jsOrZ r.numberOfDoses 1)).toNat
  intv := max (1 / 10) (jsOrQ r.dosingInterval (1 / 10))
  dose := max 0 (jsOrQ r.dose 0)
  volume := max (1 / 10 ^ 4) (jsOrQ r.volume (1 / 10 ^ 4))
  ke := max epsilon (jsOrQ r.ke epsilon)
  ka := max epsilon (jsOrQ r.ka epsilon)
  F := min 1 (max 0 (jsOrQ r.bioavailability 0))
  therapeuticMin := r.therapeuticMin
  therapeuticMax := r.therapeuticMax

/-- Administration route. -/
inductive Route where
  | iv
  | oral
deriving DecidableEq

/-- IV bolus single dose: `C(t) = C0 * e^(-ke*t)`. -/
noncomputable def calculateIVBolus (t C0 keVal : ℝ) : ℝ :=
  C0 * Real.exp (-keVal * t)

/-- Oral single dose:
`C(t) = (F*D*ka)/(V*(ka-ke)) * (e^(-ke*t) - e^(-ka*t))`, replaced by
the L'Hopital limit `(F*D*ka/V) * t * e^(-ka*t)` when `|ka-ke| < 1e-6`. -/
noncomputable def calculateOralDose (t D V kaVal keVal F : ℝ) : ℝ :=
  if |kaVal - keVal| < 1 / 10 ^ 6 then
    (F * D * kaVal / V) * t * Real.exp (-kaVal * t)
  else
    (F * D * kaVal) / (V * (kaVal - keVal)) *
      (Real.exp (-keVal * t) - Real.exp (-kaVal * t))

/-- Multi-dose superposition: loop `i = 0 .. n-1`, adding
`single(t - i*interval)` whenever `t >= i*interval`. -/
noncomputable def calculateMultipleDoses (t : ℝ) (single : ℝ → ℝ)
    (intv : ℝ) (n : ℕ) : ℝ :=
  (List.range n).foldl
    (fun total (i : ℕ) =>
      if (i : ℝ) * intv ≤ t then total + single (t - i * intv) else total) 0

/-- The route-dependent single-dose response closed over the normalized
parameters, exactly as `simulatePK` builds it (`C0 = dose/volume` for IV). -/
noncomputable def singleDose (route : Route) (D V ka ke F : ℝ) : ℝ → ℝ :=
  match route with
  | .iv => fun τ => calculateIVBolus τ (D / V) ke
  | .oral => fun τ => calculateOralDose τ D V ka ke F

/-- Concentration at time `t` for the given route and parameters. -/
noncomputable def concAt (route : Route) (D V ka ke F intv : ℝ) (n : ℕ)
    (t : ℝ) : ℝ :=
  calculateMultipleDoses t (singleDose route D V ka ke F) intv n

/-- Status tag of a sample. -/
inductive SampleStatus where
  | subtherapeutic
  | therapeutic
  | toxic
deriving DecidableEq

/-- One point of the generated curve. -/
structure Sample where
  time : ℚ
  concentration : ℝ
  therapeuticMin : ℚ
  therapeuticMax : ℚ
  inRange : Bool
  status : SampleStatus

/-- Simulation horizon: `maxTime = max(24, nDose * intv + 24)`. -/
def maxTime (n : ℕ) (intv : ℚ) : ℚ :=
  max 24 ((n : ℚ) * intv + 24)

/-- Number of iterations of the sampling loop
`for (t = 0; t <= maxTime + 1e-9; t += 0.25)`: the visited times are the
quarter-grid points `k/4` with `k/4 ≤ maxTime + 1e-9`. -/
def numSteps (n : ℕ) (intv : ℚ) : ℕ :=
  (Int.floor (4 * (maxTime n intv + 1 / 10 ^ 9))).toNat + 1

/-- The sample built at loop index `k` (time `t = k/4`, which is exact
under `Number(t.toFixed(2))` since quarter values have two decimals). -/
noncomputable def mkSample (route : Route) (p : Params) (k : ℕ) : Sample :=
  let t : ℚ := (k : ℚ) / 4
  let c : ℝ := concAt route (p.dose : ℝ) (p.volume : ℝ) (p.ka : ℝ)
    (p.ke : ℝ) (p.F : ℝ) (p.intv : ℝ) p.nDose (t : ℝ)
  { time := t
    concentration := c
    therapeuticMin := p.therapeuticMin
    therapeuticMax := p.therapeuticMax
    inRange :=
      if (p.therapeuticMin : ℝ) ≤ c ∧ c ≤ (p.therapeuticMax : ℝ) then
        true
      else false
    status :=
      if c < (p.therapeuticMin : ℝ) then .subtherapeutic
      else if (p.therapeuticMax : ℝ) < c then .toxic
      else .therapeutic }

/-- The generator `simulatePK`: the full sample sequence. -/
noncomputable def simulatePK (route : Route) (p : Params) : List Sample :=
  (List.range (numSteps p.nDose p.intv)).map (mkSample route p)

/-- Trapezoidal AUC loop of `calculateMetrics`:
`for i = 1 .. len-1: AUC += (C_i + C_{i-1})/2 * (t_i - t_{i-1})`. -/
noncomputable def calcAUC : List Sample → ℝ
  | a :: b :: rest =>
      (b.concentration + a.concentration) / 2 * ((b.time : ℝ) - (a.time : ℝ)) +
        calcAUC (b :: rest)
  | _ => 0

/-- Model of `Math.max(...)` over a nonempty list of reals. -/
noncomputable def lmax : List ℝ → ℝ
  | [] => 0
  | a :: rest => rest.foldl max a

/-- Model of `Math.min(...)` over a nonempty list of reals. -/
noncomputable def lmin : List ℝ → ℝ
  | [] => 0
  | a :: rest => rest.foldl min a

/-- The last sample time `data[data.length - 1].time` (0 on the empty list, which the caller
rules out). -/
def lastTime (data : List Sample) : ℚ :=
  (data.getLast?.map Sample.time).getD 0

open Classical in
/-- Steady-state block of `calculateMetrics`: with
`halfLife = ln 2 / ke`, the triple `(Css_avg, Css_max, Css_min)` is
produced only when `nDose > 1` and the last sample time reaches
`5 * halfLife`; the aggregation window is the trailing
`min(5*halfLife, 4*intv)` hours.  (The source's `toFixed(3)` display
rounding is not modelled.) -/
noncomputable def steadyStateMetrics (data : List Sample) (nDose : ℕ)
    (intv ke : ℝ) : Option (ℝ × ℝ × ℝ) :=
  let halfLife := Real.log 2 / ke
  if data ≠ [] ∧ 1 < nDose ∧ 5 * halfLife ≤ (lastTime data : ℝ) then
    let windowHours := min (5 * halfLife) (intv * 4)
    let startTime := (lastTime data : ℝ) - windowHours
    let steadyData := data.filter fun d => startTime ≤ (d.time : ℝ)
    if steadyData ≠ [] then
      some ((steadyData.map Sample.concentration).sum / steadyData.length,
        lmax (steadyData.map Sample.concentration),
        lmin (steadyData.map Sample.concentration))
    else none
  else none

open Classical in
/-- The claim's steady-state aggregation window: the samples whose time
lies within the trailing `min(5*halfLife, 4*interval)` hours of the
sequence, with `halfLife = ln 2 / ke`. -/
noncomputable def steadyWindow (data : List Sample) (intv ke : ℝ) :
    List Sample :=
  data.filter fun d =>
    (lastTime data : ℝ) - min (5 * (Real.log 2 / ke)) (intv * 4) ≤
      (d.time : ℝ)

/-- Peak block of `calculateMetrics`: `Tmax`/`Cmax` are computed only for
the oral route and only when `ka > ke + 1e-12`; otherwise both are
reported as not applicable (`none`). -/
noncomputable def computeTmaxCmax (route : Route) (D V ka ke F : ℝ) :
    Option (ℝ × ℝ) :=
  if route = .oral ∧ ke + 1 / 10 ^ 12 < ka then
    let tmax := Real.log (ka / ke) / (ka - ke)
    some (tmax, calculateOralDose tmax D V ka ke F)
  else none

/-- The legacy component's concentration at integer time `t`:
`k = ln 2 / halfLife`, then
`for (n = 0; n <= t/interval; n++) if (t >= n*interval) conc += dose * exp(-k*(t - n*interval))`,
so the loop visits `n = 0 .. ⌊t/interval⌋`. -/
noncomputable def legacyConcentration (dose halfLife interval : ℝ)
    (t : ℕ) : ℝ :=
  let k := Real.log 2 / halfLife
  ∑ n ∈ Finset.range ((⌊(t : ℝ) / interval⌋).toNat + 1),
    if (n : ℝ) * interval ≤ (t : ℝ) then
      dose * Real.exp (-k * ((t : ℝ) - (n : ℝ) * interval))
    else 0

/-- The claim's AUC formula: `Σ (C_i + C_{i-1})/2 * (t_i - t_{i-1})`
over consecutive sample pairs. -/
noncomputable def trapezoidalSum (l : List Sample) : ℝ :=
  ((l.zip l.tail).map fun pr =>
    (pr.2.concentration + pr.1.concentration) / 2 *
      ((pr.2.time : ℝ) - (pr.1.time : ℝ))).sum

/-! ## Helper lemmas -/

lemma multipleDoses_foldl (t intv : ℝ) (single : ℝ → ℝ) (n : ℕ)
    (init : ℝ) :
    (List.range n).foldl
        (fun total (i : ℕ) =>
          if (i : ℝ) * intv ≤ t then total + single (t - i * intv)
          else total) init =
      init + ∑ i ∈ Finset.range n,
        if (i : ℝ) * intv ≤ t then single (t - i * intv) else 0 := by
  induction n generalizing init with
  | zero => simp
  | succ m ih =>
      rw [List.range_succ, List.foldl_append, Finset.sum_range_succ, ih]
      by_cases h : (m : ℝ) * intv ≤ t
      · simp [h, add_assoc]
      · simp [h]

/-- The superposition loop is the guarded sum over dose indices. -/
lemma calculateMultipleDoses_eq_sum (t intv : ℝ) (single : ℝ → ℝ)
    (n : ℕ) :
    calculateMultipleDoses t single intv n =
      ∑ i ∈ Finset.range n,
        if (i : ℝ) * intv ≤ t then single (t - i * intv) else 0 := by
  rw [calculateMultipleDoses, multipleDoses_foldl, zero_add]

/-! ## Claims -/

/-- C1: for every query time `t ≥ 0`, dose count `n ≥ 1`, interval
`intv > 0` and single-dose response `single`, the multi-dose
concentration is the sum of `single (t - i*intv)` over exactly the dose
indices `i < n` with `i*intv ≤ t`; in particular with IV parameters
dose 500, interval 8, 3 doses, ke = 0.1, the concentration at `t = 16`
is `single 16 + single 8 + single 0`. -/
theorem C1_multi_dose_superposition :
    (∀ (t intv : ℝ) (single : ℝ → ℝ) (n : ℕ), 0 ≤ t → 1 ≤ n → 0 < intv →
      calculateMultipleDoses t single intv n =
        ∑ i ∈ Finset.range n,
          if (i : ℝ) * intv ≤ t then single (t - i * intv) else 0) ∧
    (∀ V : ℝ,
      concAt .iv 500 V (1 / 2) (1 / 10) (8 / 10) 8 3 16 =
        singleDose .iv 500 V (1 / 2) (1 / 10) (8 / 10) 16 +
          singleDose .iv 500 V (1 / 2) (1 / 10) (8 / 10) 8 +
          singleDose .iv 500 V (1 / 2) (1 / 10) (8 / 10) 0) := by
  constructor
  · intro t intv single n _ _ _
    exact calculateMultipleDoses_eq_sum t intv single n
  · intro V
    rw [concAt, calculateMultipleDoses_eq_sum]
    rw [Finset.sum_range_succ, Finset.sum_range_succ, Finset.sum_range_one]
    norm_num

/-- Witness for C1 at concrete inputs. -/
theorem C1_multi_dose_superposition_witness :
    calculateMultipleDoses 3 (fun x => x) 1 2 =
      ∑ i ∈ Finset.range 2,
        if (i : ℝ) * 1 ≤ 3 then ((3 : ℝ) - i * 1) else 0 :=
  C1_multi_dose_superposition.1 3 1 (fun x => x) 2 (by norm_num)
    (by norm_num) (by norm_num)

/-- C2: the single-dose oral concentration uses the closed form with
division by `ka - ke` exactly when `|ka - ke| ≥ 1e-6`, and the
L'Hopital limiting form when `|ka - ke| < 1e-6`. -/
theorem C2_oral_formula_branches (t D V ka ke F : ℝ) :
    (|ka - ke| < 1 / 10 ^ 6 →
      calculateOralDose t D V ka ke F =
        (F * D * ka / V) * t * Real.exp (-ka * t)) ∧
    (1 / 10 ^ 6 ≤ |ka - ke| →
      calculateOralDose t D V ka ke F =
        (F * D * ka) / (V * (ka - ke)) *
          (Real.exp (-ke * t) - Real.exp (-ka * t))) := by
  constructor
  · intro h
    rw [calculateOralDose, if_pos h]
  · intro h
    rw [calculateOralDose, if_neg (not_lt.2 h)]

/-- Witness for C2: both branches at concrete inputs. -/
theorem C2_oral_formula_branches_witness :
    (calculateOralDose 1 500 50 (1 / 2) (1 / 2) (8 / 10) =
      ((8 / 10) * 500 * (1 / 2) / 50) * 1 * Real.exp (-(1 / 2) * 1)) ∧
    (calculateOralDose 1 500 50 (1 / 2) (1 / 10) (8 / 10) =
      ((8 / 10) * 500 * (1 / 2)) / (50 * ((1 / 2) - (1 / 10))) *
        (Real.exp (-(1 / 10) * 1) - Real.exp (-(1 / 2) * 1))) :=
  ⟨(C2_oral_formula_branches 1 500 50 (1 / 2) (1 / 2) (8 / 10)).1
      (by rw [sub_self, abs_zero]; norm_num),
    (C2_oral_formula_branches 1 500 50 (1 / 2) (1 / 10) (8 / 10)).2
      (by rw [show (1 / 2 : ℝ) - 1 / 10 = 2 / 5 by norm_num,
            abs_of_pos (by norm_num)]; norm_num)⟩

/-- C3 (amended): the defensive normalization clamps every numeric field
it covers — dose count `≥ 1`, interval `≥ 0.1`, dose amount `≥ 0`,
volume `≥ 1e-4`, rate constants `≥ 1e-9`, bioavailability in `[0,1]` —
but the therapeutic band bounds are NOT clamped: they pass through
unchanged. -/
theorem C3_normalization_clamps (r : RawParams) :
    1 ≤ (normalizeParams r).nDose ∧
    1 / 10 ≤ (normalizeParams r).intv ∧
    0 ≤ (normalizeParams r).dose ∧
    1 / 10 ^ 4 ≤ (normalizeParams r).volume ∧
    epsilon ≤ (normalizeParams r).ke ∧
    epsilon ≤ (normalizeParams r).ka ∧
    0 ≤ (normalizeParams r).F ∧ (normalizeParams r).F ≤ 1 ∧
    (normalizeParams r).therapeuticMin = r.therapeuticMin ∧
    (normalizeParams r).therapeuticMax = r.therapeuticMax := by
  refine ⟨?_, le_max_left _ _, le_max_left _ _, le_max_left _ _,
    le_max_left _ _, le_max_left _ _,
    le_min (by norm_num) (le_max_left _ _), min_le_left _ _, rfl, rfl⟩
  exact Int.toNat_le_toNat (le_max_left 1 _)

/-- C3 counterexample: the therapeutic band bounds are used as-is; a raw
input with `therapeuticMin = -5`, `therapeuticMax = -7` reaches the
computation unchanged (in particular negative, so not clamped to any
strictly positive or bounded range). -/
theorem C3_normalization_counterexample :
    (normalizeParams ⟨some 3, some 8, some 500, some 50, some (1 / 10),
        some (1 / 2), some (8 / 10), -5, -7⟩).therapeuticMin = -5 ∧
    (normalizeParams ⟨some 3, some 8, some 500, some 50, some (1 / 10),
        some (1 / 2), some (8 / 10), -5, -7⟩).therapeuticMax = -7 ∧
    (normalizeParams ⟨some 3, some 8, some 500, some 50, some (1 / 10),
        some (1 / 2), some (8 / 10), -5, -7⟩).therapeuticMin < 0 :=
  ⟨rfl, rfl, by norm_num [normalizeParams]⟩

/-! ### Sample-sequence structure (C4) -/

lemma simulatePK_map_time (route : Route) (p : Params) :
    (simulatePK route p).map Sample.time =
      (List.range (numSteps p.nDose p.intv)).map
        (fun (k : ℕ) => (k : ℚ) / 4) := by
  rw [simulatePK, List.map_map]
  rfl

lemma maxTime_ge (n : ℕ) (intv : ℚ) : (24 : ℚ) ≤ maxTime n intv :=
  le_max_left _ _

/-- C4: the generated sequence starts at `t = 0`, advances strictly
increasingly at the fixed step `0.25`, contains every grid point up to
the horizon `max(24, nDose*intv + 24)` inclusive (no sample exceeding
the horizon by more than the loop's `1e-9` slack), and each sample is
tagged in-range exactly when its concentration lies in the therapeutic
band. -/
theorem C4_sequence_structure (route : Route) (p : Params) :
    ((simulatePK route p).map Sample.time).head? = some 0 ∧
    ((simulatePK route p).map Sample.time).Pairwise (· < ·) ∧
    ((simulatePK route p).map Sample.time).Chain'
      (fun a b => b = a + 1 / 4) ∧
    (∀ k : ℕ, (k : ℚ) / 4 ≤ maxTime p.nDose p.intv →
      ((k : ℚ) / 4) ∈ (simulatePK route p).map Sample.time) ∧
    (∀ s ∈ simulatePK route p,
      s.time ≤ maxTime p.nDose p.intv + 1 / 10 ^ 9) ∧
    (∀ s ∈ simulatePK route p,
      s.inRange = true ↔
        (p.therapeuticMin : ℝ) ≤ s.concentration ∧
          s.concentration ≤ (p.therapeuticMax : ℝ)) := by
  have hsteps : numSteps p.nDose p.intv =
      (Int.floor (4 * (maxTime p.nDose p.intv + 1 / 10 ^ 9))).toNat + 1 :=
    rfl
  have hnn : (0 : ℚ) ≤ 4 * (maxTime p.nDose p.intv + 1 / 10 ^ 9) := by
    have := maxTime_ge p.nDose p.intv
    linarith
  refine ⟨?_, ?_, ?_, ?_, ?_, ?_⟩
  · rw [simulatePK_map_time, hsteps, List.range_succ_eq_map]
    simp
  · rw [simulatePK_map_time]
    refine (List.pairwise_lt_range _).map _ fun a b h => ?_
    have : (a : ℚ) < b := by exact_mod_cast h
    linarith
  · rw [simulatePK_map_time, List.chain'_map, hsteps]
    refine (List.chain'_range_succ _ _).2 fun m _ => ?_
    push_cast
    ring
  · intro k hk
    rw [simulatePK_map_time]
    refine List.mem_map.2 ⟨k, List.mem_range.2 ?_, rfl⟩
    have h1 : (k : ℚ) ≤ 4 * (maxTime p.nDose p.intv + 1 / 10 ^ 9) := by
      linarith
    have h2 : (k : ℤ) ≤ Int.floor (4 * (maxTime p.nDose p.intv + 1 / 10 ^ 9)) :=
      Int.le_floor.2 (by exact_mod_cast h1)
    have h3 := Int.toNat_le_toNat h2
    rw [Int.toNat_natCast] at h3
    omega
  · intro s hs
    obtain ⟨k, hk, rfl⟩ := List.mem_map.1 hs
    rw [List.mem_range, hsteps] at hk
    have hk' : (k : ℤ) ≤ Int.floor (4 * (maxTime p.nDose p.intv + 1 / 10 ^ 9)) := by
      have h4 : k ≤ (Int.floor (4 * (maxTime p.nDose p.intv + 1 / 10 ^ 9))).toNat :=
        Nat.le_of_lt_succ hk
      have h5 := Int.toNat_of_nonneg (Int.floor_nonneg.2 hnn)
      omega
    have h6 : ((k : ℤ) : ℚ) ≤ 4 * (maxTime p.nDose p.intv + 1 / 10 ^ 9) :=
      le_trans (by exact_mod_cast hk') (Int.floor_le _)
    have h7 : (k : ℚ) ≤ 4 * (maxTime p.nDose p.intv + 1 / 10 ^ 9) := by
      exact_mod_cast h6
    show (k : ℚ) / 4 ≤ maxTime p.nDose p.intv + 1 / 10 ^ 9
    linarith
  · intro s hs
    obtain ⟨k, _, rfl⟩ := List.mem_map.1 hs
    show (if (p.therapeuticMin : ℝ) ≤ _ ∧ _ ≤ (p.therapeuticMax : ℝ)
        then true else false) = true ↔ _
    by_cases h : (p.therapeuticMin : ℝ) ≤
          concAt route (p.dose : ℝ) (p.volume : ℝ) (p.ka : ℝ) (p.ke : ℝ)
            (p.F : ℝ) (p.intv : ℝ) p.nDose (((k : ℚ) / 4 : ℚ) : ℝ) ∧
        concAt route (p.dose : ℝ) (p.volume : ℝ) (p.ka : ℝ) (p.ke : ℝ)
            (p.F : ℝ) (p.intv : ℝ) p.nDose (((k : ℚ) / 4 : ℚ) : ℝ) ≤
          (p.therapeuticMax : ℝ) <;>
      simp [mkSample, h]

/-! ### AUC lemmas (C7) -/

lemma calcAUC_eq_trapezoidalSum (l : List Sample) :
    calcAUC l = trapezoidalSum l := by
  induction l with
  | nil => simp [calcAUC, trapezoidalSum]
  | cons a t ih =>
      cases t with
      | nil => simp [calcAUC, trapezoidalSum]
      | cons b rest =>
          rw [calcAUC, ih]
          simp [trapezoidalSum]

lemma calcAUC_nonneg (l : List Sample)
    (hc : ∀ s ∈ l, 0 ≤ s.concentration)
    (ht : l.Chain' fun a b => a.time ≤ b.time) : 0 ≤ calcAUC l := by
  induction l with
  | nil => simp [calcAUC]
  | cons a t ih =>
      cases t with
      | nil => simp [calcAUC]
      | cons b rest =>
          rw [calcAUC]
          rw [List.chain'_cons] at ht
          have ha : 0 ≤ a.concentration := hc a (by simp)
          have hb : 0 ≤ b.concentration := hc b (by simp)
          have htt : ((a.time : ℝ)) ≤ (b.time : ℝ) := by
            exact_mod_cast ht.1
          have hrec : 0 ≤ calcAUC (b :: rest) :=
            ih (fun s hs => hc s (List.mem_cons_of_mem a hs)) ht.2
          have hterm : 0 ≤ (b.concentration + a.concentration) / 2 *
              ((b.time : ℝ) - (a.time : ℝ)) := by
            apply mul_nonneg
            · linarith
            · linarith
          linarith

lemma calcAUC_append_singleton (l : List Sample) (s a : Sample)
    (ha : l.getLast? = some a) :
    calcAUC (l ++ [s]) = calcAUC l +
      (s.concentration + a.concentration) / 2 *
        ((s.time : ℝ) - (a.time : ℝ)) := by
  induction l with
  | nil => simp at ha
  | cons x t ih =>
      cases t with
      | nil =>
          simp only [List.getLast?_singleton, Option.some.injEq] at ha
          subst ha
          simp [calcAUC]
      | cons b rest =>
          rw [List.getLast?_cons_cons] at ha
          have key := ih ha
          simp only [List.cons_append] at key ⊢
          rw [calcAUC, key, calcAUC]
          ring

/-- C7: the reported AUC is the trapezoidal sum
`Σ (C_i + C_{i-1})/2 * (t_i - t_{i-1})` over consecutive samples; it is
non-negative for non-negative concentrations with non-decreasing times,
and appending a trailing sample of positive concentration at a strictly
later time strictly increases it. -/
theorem C7_auc_trapezoidal :
    (∀ l : List Sample, calcAUC l = trapezoidalSum l) ∧
    (∀ l : List Sample, (∀ s ∈ l, 0 ≤ s.concentration) →
      l.Chain' (fun a b => a.time ≤ b.time) → 0 ≤ calcAUC l) ∧
    (∀ (l : List Sample) (s a : Sample), l.getLast? = some a →
      (∀ x ∈ l, 0 ≤ x.concentration) → 0 < s.concentration →
      a.time < s.time →
      calcAUC l < calcAUC (l ++ [s])) := by
  refine ⟨calcAUC_eq_trapezoidalSum, calcAUC_nonneg, ?_⟩
  intro l s a ha hc hs hlt
  rw [calcAUC_append_singleton l s a ha]
  have hmem : a ∈ l := by
    obtain ⟨hne, rfl⟩ := List.mem_getLast?_eq_getLast ha
    exact List.getLast_mem hne
  have h1 : 0 ≤ a.concentration := hc _ hmem
  have h2 : (a.time : ℝ) < (s.time : ℝ) := by exact_mod_cast hlt
  have : 0 < (s.concentration + a.concentration) / 2 *
      ((s.time : ℝ) - (a.time : ℝ)) := by
    apply mul_pos
    · linarith
    · linarith
  linarith

/-- Witness for C7 on a concrete three-sample sequence. -/
theorem C7_auc_trapezoidal_witness :
    (0 ≤ calcAUC [⟨0, 2, 0, 10, true, .therapeutic⟩,
        ⟨1, 4, 0, 10, true, .therapeutic⟩]) ∧
    calcAUC [⟨0, 2, 0, 10, true, .therapeutic⟩,
        ⟨1, 4, 0, 10, true, .therapeutic⟩] <
      calcAUC ([⟨0, 2, 0, 10, true, .therapeutic⟩,
        ⟨1, 4, 0, 10, true, .therapeutic⟩] ++
          [⟨2, 3, 0, 10, true, .therapeutic⟩]) :=
  ⟨C7_auc_trapezoidal.2.1 _
      (by intro s hs; simp at hs; rcases hs with rfl | rfl <;> norm_num)
      (by norm_num [List.chain'_cons]),
    C7_auc_trapezoidal.2.2 _ _ ⟨1, 4, 0, 10, true, .therapeutic⟩ (by simp)
      (by intro s hs; simp at hs; rcases hs with rfl | rfl <;> norm_num)
      (by norm_num)
      (by norm_num)⟩

/-! ### IV bolus shape (C8) -/

/-- C8 (amended): for positive `ke` and volume, the IV bolus single-dose
concentration at `t = 0` is `dose/volume`; it is strictly decreasing in
`t ≥ 0` provided the dose is positive (a zero dose — allowed by the
clamp `max(0, ·)` — gives the constant zero curve). -/
theorem C8_iv_bolus_shape (D V ke : ℝ) (hV : 0 < V) (hke : 0 < ke) :
    calculateIVBolus 0 (D / V) ke = D / V ∧
    (0 < D → ∀ t₁ t₂ : ℝ, 0 ≤ t₁ → t₁ < t₂ →
      calculateIVBolus t₂ (D / V) ke < calculateIVBolus t₁ (D / V) ke) := by
  constructor
  · simp [calculateIVBolus]
  · intro hD t₁ t₂ _ hlt
    have hC0 : 0 < D / V := div_pos hD hV
    apply mul_lt_mul_of_pos_left _ hC0
    apply Real.exp_lt_exp.2
    nlinarith

/-- Witness for C8 at `dose = 500`, `volume = 50`, `ke = 0.1`. -/
theorem C8_iv_bolus_shape_witness :
    calculateIVBolus 0 ((500 : ℝ) / 50) (1 / 10) = 500 / 50 ∧
    calculateIVBolus 1 ((500 : ℝ) / 50) (1 / 10) <
      calculateIVBolus 0 ((500 : ℝ) / 50) (1 / 10) :=
  ⟨(C8_iv_bolus_shape 500 50 (1 / 10) (by norm_num) (by norm_num)).1,
    (C8_iv_bolus_shape 500 50 (1 / 10) (by norm_num) (by norm_num)).2
      (by norm_num) 0 1 le_rfl (by norm_num)⟩

/-- C8 counterexample: at the clamped dose `0` the curve is constant
(`C(1) = C(0) = 0`), so the concentration is not strictly decreasing for
every clamped parameter record. -/
theorem C8_iv_bolus_shape_counterexample :
    calculateIVBolus 1 ((0 : ℝ) / 1) 1 = calculateIVBolus 0 ((0 : ℝ) / 1) 1 ∧
    ¬ calculateIVBolus 1 ((0 : ℝ) / 1) 1 < calculateIVBolus 0 ((0 : ℝ) / 1) 1 := by
  constructor <;> simp [calculateIVBolus]

/-! ### Non-negativity (C9) -/

lemma singleDose_nonneg (route : Route) (D V ka ke F τ : ℝ)
    (hD : 0 ≤ D) (hV : 0 < V) (hka : 0 < ka) (hke : 0 < ke)
    (hF : 0 ≤ F) (hτ : 0 ≤ τ) : 0 ≤ singleDose route D V ka ke F τ := by
  cases route with
  | iv =>
      exact mul_nonneg (div_nonneg hD hV.le) (Real.exp_nonneg _)
  | oral =>
      show 0 ≤ calculateOralDose τ D V ka ke F
      rw [calculateOralDose]
      by_cases h : |ka - ke| < 1 / 10 ^ 6
      · rw [if_pos h]
        exact mul_nonneg
          (mul_nonneg
            (div_nonneg (mul_nonneg (mul_nonneg hF hD) hka.le) hV.le) hτ)
          (Real.exp_nonneg _)
      · rw [if_neg h]
        rcases le_or_lt ka ke with hle | hgt
        · have hne : ka ≠ ke := by
            intro hEq
            apply h
            rw [hEq, sub_self, abs_zero]
            norm_num
          have hlt : ka < ke := lt_of_le_of_ne hle hne
          have hbr : Real.exp (-ke * τ) - Real.exp (-ka * τ) ≤ 0 := by
            have harg : -ke * τ ≤ -ka * τ := by nlinarith
            have := Real.exp_le_exp.2 harg
            linarith
          have hco : (F * D * ka) / (V * (ka - ke)) ≤ 0 := by
            apply div_nonpos_of_nonneg_of_nonpos
            · exact mul_nonneg (mul_nonneg hF hD) hka.le
            · apply mul_nonpos_of_nonneg_of_nonpos hV.le
              linarith
          nlinarith
        · have hbr : 0 ≤ Real.exp (-ke * τ) - Real.exp (-ka * τ) := by
            have harg : -ka * τ ≤ -ke * τ := by nlinarith
            have := Real.exp_le_exp.2 harg
            linarith
          have hco : 0 ≤ (F * D * ka) / (V * (ka - ke)) := by
            apply div_nonneg (mul_nonneg (mul_nonneg hF hD) hka.le)
            apply mul_nonneg hV.le
            linarith
          exact mul_nonneg hco hbr

/-- C9: for every clamped parameter record (`dose ≥ 0`, `volume > 0`,
`ke > 0`, `ka > 0`, `F ∈ [0,1]`, `interval > 0`, `doseCount ≥ 1`), every
route and every sample time `t ≥ 0`, the computed concentration is
non-negative — covering both signs of `ka - ke` in the oral closed form,
the L'Hopital branch, and every multi-dose superposition. -/
theorem C9_concentration_nonneg (route : Route)
    (D V ka ke F intv : ℝ) (n : ℕ) (t : ℝ)
    (hD : 0 ≤ D) (hV : 0 < V) (hke : 0 < ke) (hka : 0 < ka)
    (hF0 : 0 ≤ F) (hF1 : F ≤ 1) (hintv : 0 < intv) (hn : 1 ≤ n)
    (ht : 0 ≤ t) :
    0 ≤ concAt route D V ka ke F intv n t := by
  rw [concAt, calculateMultipleDoses_eq_sum]
  apply Finset.sum_nonneg
  intro i _
  by_cases h : (i : ℝ) * intv ≤ t
  · rw [if_pos h]
    exact singleDose_nonneg route D V ka ke F _ hD hV hka hke hF0
      (by linarith)
  · rw [if_neg h]

/-- Witness for C9: oral parameters with `ka > ke` at `t = 16`. -/
theorem C9_concentration_nonneg_witness :
    0 ≤ concAt .oral 500 50 (1 / 2) (1 / 10) (8 / 10) 8 3 16 :=
  C9_concentration_nonneg .oral 500 50 (1 / 2) (1 / 10) (8 / 10) 8 3 16
    (by norm_num) (by norm_num) (by norm_num) (by norm_num) (by norm_num)
    (by norm_num) (by norm_num) (by norm_num) (by norm_num)

/-! ### Peak reporting (C6) -/

lemma log_five_gt : (8 : ℝ) / 5 < Real.log 5 := by
  rw [Real.lt_log_iff_exp_lt (by norm_num : (0 : ℝ) < 5)]
  have h1 : Real.exp ((8 : ℝ) / 5) ^ (5 : ℕ) = Real.exp 8 := by
    rw [← Real.exp_nat_mul]
    norm_num
  have h2 : Real.exp 8 = Real.exp 1 ^ (8 : ℕ) := by
    rw [← Real.exp_nat_mul]
    norm_num
  have h3 : Real.exp 1 ^ (8 : ℕ) < 2.7182818286 ^ (8 : ℕ) :=
    pow_lt_pow_left Real.exp_one_lt_d9 (Real.exp_pos 1).le (by norm_num)
  have h4 : Real.exp ((8 : ℝ) / 5) ^ (5 : ℕ) < (5 : ℝ) ^ (5 : ℕ) := by
    rw [h1, h2]
    calc Real.exp 1 ^ (8 : ℕ) < 2.7182818286 ^ (8 : ℕ) := h3
      _ < (5 : ℝ) ^ (5 : ℕ) := by norm_num
  exact lt_of_pow_lt_pow_left 5 (by norm_num) h4

lemma log_five_lt : Real.log 5 < 41 / 25 := by
  rw [Real.log_lt_iff_lt_exp (by norm_num : (0 : ℝ) < 5)]
  have h1 : Real.exp ((41 : ℝ) / 25) ^ (25 : ℕ) = Real.exp 41 := by
    rw [← Real.exp_nat_mul]
    norm_num
  have h2 : Real.exp 41 = Real.exp 1 ^ (41 : ℕ) := by
    rw [← Real.exp_nat_mul]
    norm_num
  have h3 : (2.7182818283 : ℝ) ^ (41 : ℕ) < Real.exp 1 ^ (41 : ℕ) := by
    apply pow_lt_pow_left Real.exp_one_gt_d9 (by norm_num)
    norm_num
  have h4 : (5 : ℝ) ^ (25 : ℕ) < Real.exp ((41 : ℝ) / 25) ^ (25 : ℕ) := by
    rw [h1, h2]
    calc (5 : ℝ) ^ (25 : ℕ) < 2.7182818283 ^ (41 : ℕ) := by norm_num
      _ < Real.exp 1 ^ (41 : ℕ) := h3
  exact lt_of_pow_lt_pow_left 25 (Real.exp_pos _).le h4

/-- C6 (amended): `Tmax`/`Cmax` are reported as not applicable whenever
the route is IV, and for the oral route whenever `ka ≤ ke + 1e-12` (the
source requires the margin `ka > ke + 1e-12`, not merely `ka > ke`);
otherwise the peak time is `ln(ka/ke)/(ka - ke)` and the peak
concentration is the single-dose oral concentration there (for
`ka = 0.5`, `ke = 0.1` the peak time lies in `(4, 4.1)`, ≈ 4.02 h). -/
theorem C6_peak_reporting (route : Route) (D V ka ke F : ℝ) :
    ((route = .iv ∨ ka ≤ ke + 1 / 10 ^ 12) →
      computeTmaxCmax route D V ka ke F = none) ∧
    (route = .oral → ke + 1 / 10 ^ 12 < ka →
      computeTmaxCmax route D V ka ke F =
        some (Real.log (ka / ke) / (ka - ke),
          calculateOralDose (Real.log (ka / ke) / (ka - ke)) D V ka ke F)) ∧
    (4 < Real.log ((1 / 2) / (1 / 10)) / (1 / 2 - 1 / 10) ∧
      Real.log ((1 / 2) / (1 / 10)) / (1 / 2 - 1 / 10) < 41 / 10) := by
  refine ⟨?_, ?_, ?_⟩
  · intro h
    rw [computeTmaxCmax, if_neg]
    rintro ⟨h1, h2⟩
    rcases h with hiv | hle
    · rw [hiv] at h1
      exact Route.noConfusion h1
    · linarith
  · intro h1 h2
    rw [computeTmaxCmax, if_pos ⟨h1, h2⟩]
  · have h5 : ((1 : ℝ) / 2) / (1 / 10) = 5 := by norm_num
    have hd : (1 : ℝ) / 2 - 1 / 10 = 2 / 5 := by norm_num
    rw [h5, hd]
    have hlo := log_five_gt
    have hhi := log_five_lt
    constructor
    · rw [lt_div_iff (by norm_num : (0 : ℝ) < 2 / 5)]
      linarith
    · rw [div_lt_iff (by norm_num : (0 : ℝ) < 2 / 5)]
      linarith

/-- Witness for C6: both reporting branches at concrete parameters. -/
theorem C6_peak_reporting_witness :
    computeTmaxCmax .iv 500 50 (1 / 2) (1 / 10) (8 / 10) = none ∧
    computeTmaxCmax .oral 500 50 (1 / 2) (1 / 10) (8 / 10) =
      some (Real.log ((1 / 2) / (1 / 10)) / (1 / 2 - 1 / 10),
        calculateOralDose (Real.log ((1 / 2) / (1 / 10)) / (1 / 2 - 1 / 10))
          500 50 (1 / 2) (1 / 10) (8 / 10)) :=
  ⟨(C6_peak_reporting .iv 500 50 (1 / 2) (1 / 10) (8 / 10)).1 (Or.inl rfl),
    (C6_peak_reporting .oral 500 50 (1 / 2) (1 / 10) (8 / 10)).2.1 rfl
      (by norm_num)⟩

/-- C6 counterexample: for the oral route with `ke = 0.1` and
`ka = 0.1 + 1e-13` we have `ka > ke`, yet the code reports the peak as
not applicable because `ka ≤ ke + 1e-12`. -/
theorem C6_peak_reporting_counterexample :
    computeTmaxCmax .oral 500 50 (1 / 10 + 1 / 10 ^ 13) (1 / 10) (8 / 10) =
      none ∧
    (1 / 10 : ℝ) < 1 / 10 + 1 / 10 ^ 13 := by
  constructor
  · rw [computeTmaxCmax, if_neg]
    rintro ⟨-, h⟩
    norm_num at h
  · norm_num

/-! ### Steady state (C5) -/

/-- C5: on a nonempty sample sequence with positive `ke` and interval,
the steady-state average/max/min are reported iff the dose count
exceeds 1 and the last sample time reaches `5 * halfLife`
(`halfLife = ln 2 / ke`); when reported they are the arithmetic mean,
maximum and minimum of the concentrations of the samples in the
trailing `min(5*halfLife, 4*interval)`-hour window; otherwise all three
are absent. -/
theorem C5_steady_state (data : List Sample) (n : ℕ) (intv ke : ℝ)
    (hne : data ≠ []) (hke : 0 < ke) (hintv : 0 < intv) :
    (¬(1 < n ∧ 5 * (Real.log 2 / ke) ≤ (lastTime data : ℝ)) →
      steadyStateMetrics data n intv ke = none) ∧
    ((1 < n ∧ 5 * (Real.log 2 / ke) ≤ (lastTime data : ℝ)) →
      steadyStateMetrics data n intv ke =
        some (((steadyWindow data intv ke).map Sample.concentration).sum /
            ((steadyWindow data intv ke).length : ℝ),
          lmax ((steadyWindow data intv ke).map Sample.concentration),
          lmin ((steadyWindow data intv ke).map Sample.concentration))) := by
  constructor
  · intro hcond
    simp only [steadyStateMetrics]
    rw [if_neg]
    intro hc
    exact hcond ⟨hc.2.1, hc.2.2⟩
  · intro hcond
    have hlt : lastTime data = (data.getLast hne).time := by
      rw [lastTime, List.getLast?_eq_getLast_of_ne_nil hne]
      rfl
    have hhl : 0 < Real.log 2 / ke :=
      div_pos (Real.log_pos (by norm_num)) hke
    have hmin : 0 ≤ min (5 * (Real.log 2 / ke)) (intv * 4) :=
      le_min (by linarith) (by linarith)
    have hlastmem : data.getLast hne ∈ steadyWindow data intv ke := by
      rw [steadyWindow, List.mem_filter]
      refine ⟨List.getLast_mem hne, ?_⟩
      rw [decide_eq_true_eq, hlt]
      linarith
    have hwne : steadyWindow data intv ke ≠ [] :=
      List.ne_nil_of_mem hlastmem
    simp only [steadyStateMetrics]
    rw [if_pos ⟨hne, hcond.1, hcond.2⟩]
    split_ifs with h
    · rfl
    · exact absurd hwne h

/-- Witness for C5: both branches on concrete two-sample sequences. -/
theorem C5_steady_state_witness :
    steadyStateMetrics [⟨0, 2, 0, 10, true, .therapeutic⟩,
        ⟨4, 3, 0, 10, true, .therapeutic⟩] 2 1 1 =
      some (((steadyWindow [⟨0, 2, 0, 10, true, .therapeutic⟩,
            ⟨4, 3, 0, 10, true, .therapeutic⟩] 1 1).map
              Sample.concentration).sum /
          ((steadyWindow [⟨0, 2, 0, 10, true, .therapeutic⟩,
            ⟨4, 3, 0, 10, true, .therapeutic⟩] 1 1).length : ℝ),
        lmax ((steadyWindow [⟨0, 2, 0, 10, true, .therapeutic⟩,
            ⟨4, 3, 0, 10, true, .therapeutic⟩] 1 1).map
              Sample.concentration),
        lmin ((steadyWindow [⟨0, 2, 0, 10, true, .therapeutic⟩,
            ⟨4, 3, 0, 10, true, .therapeutic⟩] 1 1).map
              Sample.concentration)) ∧
    steadyStateMetrics [⟨0, 2, 0, 10, true, .therapeutic⟩,
        ⟨4, 3, 0, 10, true, .therapeutic⟩] 1 1 1 = none :=
  ⟨(C5_steady_state _ 2 1 1 (by simp) (by norm_num) (by norm_num)).2
      (by
        refine ⟨by norm_num, ?_⟩
        have h := Real.log_two_lt_d9
        have hl : lastTime [(⟨0, 2, 0, 10, true, .therapeutic⟩ : Sample),
            ⟨4, 3, 0, 10, true, .therapeutic⟩] = 4 := rfl
        rw [hl]
        push_cast
        nlinarith),
    (C5_steady_state _ 1 1 1 (by simp) (by norm_num) (by norm_num)).1
      (by
        intro h
        exact absurd h.1 (by norm_num))⟩

/-! ### Legacy component refinement (C10) -/

/-- C10: for positive `halfLife` and `interval`, integer time `t`, and
any dose count `n` with `n * interval > t`, the legacy component's
concentration at `t` equals the improved component's IV multi-dose
concentration at `t` with volume 1 and `ke = ln 2 / halfLife`. -/
theorem C10_legacy_refinement (dose halfLife interval : ℝ) (t n : ℕ)
    (hhl : 0 < halfLife) (hintv : 0 < interval)
    (hn : (t : ℝ) < (n : ℝ) * interval) :
    legacyConcentration dose halfLife interval t =
      concAt .iv dose 1 1 (Real.log 2 / halfLife) 1 interval n (t : ℝ) := by
  rw [concAt, calculateMultipleDoses_eq_sum]
  simp only [legacyConcentration]
  have hfun : ∀ i : ℕ,
      (if (i : ℝ) * interval ≤ (t : ℝ) then
        singleDose .iv dose 1 1 (Real.log 2 / halfLife) 1
          ((t : ℝ) - i * interval) else 0) =
      (if (i : ℝ) * interval ≤ (t : ℝ) then
        dose * Real.exp (-(Real.log 2 / halfLife) *
          ((t : ℝ) - (i : ℝ) * interval)) else 0) := by
    intro i
    by_cases h : (i : ℝ) * interval ≤ (t : ℝ) <;>
      simp [h, singleDose, calculateIVBolus]
  rw [Finset.sum_congr rfl fun i _ => hfun i]
  have hte : (0 : ℝ) ≤ (t : ℝ) / interval :=
    div_nonneg (Nat.cast_nonneg t) hintv.le
  have hfl0 : 0 ≤ ⌊(t : ℝ) / interval⌋ := Int.floor_nonneg.2 hte
  have hmval : ((⌊(t : ℝ) / interval⌋.toNat : ℤ)) = ⌊(t : ℝ) / interval⌋ :=
    Int.toNat_of_nonneg hfl0
  have hmn : ⌊(t : ℝ) / interval⌋.toNat + 1 ≤ n := by
    have h1 : ⌊(t : ℝ) / interval⌋ < (n : ℤ) := by
      apply Int.floor_lt.2
      rw [div_lt_iff hintv]
      push_cast
      linarith
    omega
  apply Finset.sum_subset (Finset.range_subset.2 hmn)
  intro i hi hni
  rw [Finset.mem_range, not_lt] at hni
  rw [if_neg]
  intro hcon
  have h2 : (t : ℝ) / interval < (⌊(t : ℝ) / interval⌋.toNat : ℝ) + 1 := by
    have h := Int.lt_floor_add_one ((t : ℝ) / interval)
    have : ((⌊(t : ℝ) / interval⌋ : ℤ) : ℝ) =
        ((⌊(t : ℝ) / interval⌋.toNat : ℤ) : ℝ) := by rw [hmval]
    push_cast at this
    linarith
  have h3 : ((⌊(t : ℝ) / interval⌋.toNat : ℝ)) + 1 ≤ (i : ℝ) := by
    exact_mod_cast hni
  have h4 : (t : ℝ) < (i : ℝ) * interval := by
    have h5 : (t : ℝ) / interval < (i : ℝ) := by linarith
    have h6 : ((t : ℝ) / interval) * interval < (i : ℝ) * interval :=
      mul_lt_mul_of_pos_right h5 hintv
    rw [div_mul_cancel₀ _ hintv.ne'] at h6
    exact h6
  linarith

/-- Witness for C10 at dose 500, half-life 6 h, interval 8 h, `t = 16`,
3 doses. -/
theorem C10_legacy_refinement_witness :
    legacyConcentration 500 6 8 16 =
      concAt .iv 500 1 1 (Real.log 2 / 6) 1 8 3 ((16 : ℕ) : ℝ) :=
  C10_legacy_refinement 500 6 8 16 3 (by norm_num) (by norm_num)
    (by norm_num)

end PKSim
